import Mathlib

/-!
# Verification of the HR RAG chatbot retrieval core

Shallow embedding of `src/backend/rag_system.py` (class `RAGSystem`) and the
data model of `src/backend/models.py`.

Modelling conventions:
* Python strings are `String` / `List Char`; `str.lower()` is `Char.toLower`
  mapped over the characters (the queries and vocabulary are ASCII).
* Python `int` is `Int`; regex capture groups `(\d+)` parse to `Nat`.
* The numeric cosine-similarity vectors produced by scikit-learn /
  sentence-transformers are abstracted as an input list of rational scores
  aligned with the employee list (floating point is not modelled); every
  ranking / filtering / fallback stage downstream of the similarity numbers
  is embedded faithfully.
* `np.argsort` (default `kind='quicksort'`, whose tie order is
  implementation-defined in general but is the stable insertion-sort order
  below numpy's small-array cutoff of about 16 elements) is modelled as a
  stable ascending argsort; the code then reverses it and slices with
  Python slice semantics (`pyTake`).  No theorem below depends on the
  model's order among tied scores except at a two-element input, where
  numpy demonstrably uses the stable insertion sort.
-/

namespace RagHR

/-- `models.AvailabilityStatus` (str enum with values
"available" / "busy" / "on_leave"). -/
inductive AvailabilityStatus where
  | available
  | busy
  | on_leave
deriving DecidableEq, Repr

/-- The string value of the str-enum, as used in comparisons and joins. -/
def availabilityStr : AvailabilityStatus → String
  | .available => "available"
  | .busy => "busy"
  | .on_leave => "on_leave"

/-- `models.Employee` (pydantic model). -/
structure Employee where
  id : Int
  name : String
  skills : List String
  experience_years : Int
  projects : List String
  availability : AvailabilityStatus
  department : Option String := none
  location : Option String := none
  specializations : Option (List String) := none
deriving DecidableEq, Repr

instance : Inhabited Employee :=
  ⟨⟨0, "", [], 0, [], .available, none, none, none⟩⟩

/-- `models.ChatResponse`. -/
structure ChatResponse where
  response : String
  matched_employees : List Employee
  confidence_score : ℚ
deriving DecidableEq, Repr

/-! ## Character and string helpers (Python `str` operations) -/

/-- ASCII decimal digit test (regex `\d` on the ASCII queries modelled). -/
def isDigit (c : Char) : Bool :=
  '0' ≤ c && c ≤ '9'

/-- ASCII whitespace test (regex `\s` on the ASCII queries modelled). -/
def isSpace (c : Char) : Bool :=
  c == ' ' || c == '\t' || c == '\n' || c == '\r' || c == '\x0b' || c == '\x0c'

/-- `query.lower()` as a character list. -/
def lowerData (s : String) : List Char :=
  s.data.map Char.toLower

/-- Does `hay` start with `needle`? -/
def lstartsWith : List Char → List Char → Bool
  | _, [] => true
  | [], _ :: _ => false
  | c :: cs, d :: ds => c == d && lstartsWith cs ds

/-- Python's substring test `needle in hay`. -/
def lcontains : List Char → List Char → Bool
  | [], needle => needle.isEmpty
  | c :: rest, needle => lstartsWith (c :: rest) needle || lcontains rest needle

/-! ## Regex machinery for `_extract_requirements`

The three experience patterns of `rag_system.py` are

* `(\d+)\+?\s*years?\s*(experience|exp)`
* `with\s*(\d+)\+?\s*years?`
* `(\d+)\s*years?\s*of\s*experience`

searched with `re.search` (leftmost occurrence).  None of the quantified
pieces (`\d+`, `\+?`, `\s*`, `s?`) is ever followed by a piece that could
consume the same characters, so greedy maximal-munch matching without
backtracking is equivalent to Python's regex engine on these patterns.
-/

/-- Greedy `\d+`-style span: the maximal digit prefix and the remainder. -/
def spanDigits : List Char → (List Char × List Char)
  | [] => ([], [])
  | c :: cs =>
    if isDigit c then
      let (ds, r) := spanDigits cs
      (c :: ds, r)
    else ([], c :: cs)

/-- Greedy `\s*`: drop leading whitespace. -/
def skipSpaces : List Char → List Char
  | [] => []
  | c :: cs => if isSpace c then skipSpaces cs else c :: cs

/-- Optional single character (`\+?`, `s?`): consume it when present. -/
def optChar (c : Char) : List Char → List Char
  | [] => []
  | d :: ds => if d == c then ds else d :: ds

/-- Match a literal, returning the remainder on success. -/
def litMatch : List Char → List Char → Option (List Char)
  | [], rest => some rest
  | _ :: _, [] => none
  | p :: ps, c :: cs => if c == p then litMatch ps cs else none

/-- `int(...)` on a digit string. -/
def digitsToNat (ds : List Char) : Nat :=
  ds.foldl (fun n c => 10 * n + (c.toNat - '0'.toNat)) 0

/-- Pattern `(\d+)\+?\s*years?\s*(experience|exp)` matched at the head of
the text; returns the value of group 1. -/
def matchP1 (cs : List Char) : Option Nat :=
  match spanDigits cs with
  | ([], _) => none
  | (d :: ds, r1) =>
    match litMatch "year".data (skipSpaces (optChar '+' r1)) with
    | none => none
    | some r4 =>
      let r6 := skipSpaces (optChar 's' r4)
      if lstartsWith r6 "experience".data || lstartsWith r6 "exp".data then
        some (digitsToNat (d :: ds))
      else none

/-- Pattern `with\s*(\d+)\+?\s*years?` matched at the head of the text. -/
def matchP2 (cs : List Char) : Option Nat :=
  match litMatch "with".data cs with
  | none => none
  | some r1 =>
    match spanDigits (skipSpaces r1) with
    | ([], _) => none
    | (d :: ds, r2) =>
      match litMatch "year".data (skipSpaces (optChar '+' r2)) with
      | none => none
      | some _ => some (digitsToNat (d :: ds))

/-- Pattern `(\d+)\s*years?\s*of\s*experience` matched at the head of the
text. -/
def matchP3 (cs : List Char) : Option Nat :=
  match spanDigits cs with
  | ([], _) => none
  | (d :: ds, r1) =>
    match litMatch "year".data (skipSpaces r1) with
    | none => none
    | some r2 =>
      match litMatch "of".data (skipSpaces (optChar 's' r2)) with
      | none => none
      | some r3 =>
        if lstartsWith (skipSpaces r3) "experience".data then
          some (digitsToNat (d :: ds))
        else none

/-- `re.search`: try the matcher at every start position, leftmost match
wins. -/
def searchPat (m : List Char → Option Nat) : List Char → Option Nat
  | [] => none
  | c :: rest =>
    match m (c :: rest) with
    | some n => some n
    | none => searchPat m rest

/-- The `for pattern in exp_patterns` loop: the first pattern that has a
match anywhere sets the experience requirement. -/
def extractExperience (ql : List Char) : Option Nat :=
  match searchPat matchP1 ql with
  | some n => some n
  | none =>
    match searchPat matchP2 ql with
    | some n => some n
    | none => searchPat matchP3 ql

/-- The hardcoded `common_skills` vocabulary of `_extract_requirements`. -/
def commonSkills : List (List Char) :=
  ["python".data, "javascript".data, "java".data, "react".data,
   "angular".data, "vue".data,
   "node".data, "express".data, "django".data, "flask".data, "fastapi".data,
   "aws".data, "azure".data, "gcp".data, "docker".data, "kubernetes".data,
   "machine learning".data, "ml".data, "ai".data, "data science".data,
   "sql".data, "postgresql".data, "mongodb".data, "redis".data,
   "html".data, "css".data, "typescript".data, "go".data, "rust".data,
   "tensorflow".data, "pytorch".data, "scikit-learn".data]

/-- The `requirements` dict built by `_extract_requirements`. -/
structure Requirements where
  skills : List (List Char)
  experience : Option Nat
  projects : List (List Char)
  availability : Option String
  department : Option String
deriving DecidableEq, Repr

/-- `RAGSystem._extract_requirements`. -/
def extractRequirements (query : String) : Requirements :=
  let ql := lowerData query
  { skills := commonSkills.filter (fun sk => lcontains ql sk)
    experience := extractExperience ql
    projects := []
    availability :=
      if lcontains ql "available".data then some "available" else none
    department := none }

/-! ## `_matches_requirements` -/

/-- Python truthiness of `requirements['experience']` (None or an int). -/
def optNatTruthy : Option Nat → Bool
  | none => false
  | some n => n != 0

/-- Python truthiness of `requirements['availability']` (None or a str). -/
def optStrTruthy : Option String → Bool
  | none => false
  | some s => !s.isEmpty

/-- `f"{' '.join(skills)} {' '.join(projects)} {name}".lower()`. -/
def empTextLower (emp : Employee) : List Char :=
  lowerData (String.intercalate " " emp.skills ++ " " ++
    String.intercalate " " emp.projects ++ " " ++ emp.name)

/-- The body of the `for req_skill in requirements['skills']` loop for one
requested skill. -/
def skillsMatchOne (emp : Employee) (rs : List Char) : Bool :=
  (emp.skills.map lowerData).contains rs ||
  lcontains (empTextLower emp) rs ||
  emp.skills.any (fun sk => lcontains (lowerData sk) rs)

/-- `RAGSystem._matches_requirements`.  Note the Python truthiness tests:
an extracted experience threshold of `0` and an empty availability string
behave exactly like an absent constraint. -/
def matchesRequirements (emp : Employee) (reqs : Requirements) : Bool :=
  if optNatTruthy reqs.experience &&
      decide ((emp.experience_years : Int) < (reqs.experience.getD 0 : Nat)) then
    false
  else if optStrTruthy reqs.availability &&
      (availabilityStr emp.availability != reqs.availability.getD "") then
    false
  else if !reqs.skills.isEmpty && !(reqs.skills.any (skillsMatchOne emp)) then
    false
  else
    true

/-! ## Ranking: `np.argsort(similarities)[::-1][:max_results * 2]`

The similarity vector is abstracted as a `List ℚ` aligned with the employee
list.  `np.argsort` (ascending; numpy falls back to insertion sort, which is
stable, on the small arrays this system ranks) is modelled as the stable
ascending argsort, i.e. sorting the index range by the lexicographic key
(score, index). -/

/-- `similarities[i]` (0 outside the range, which never occurs when the
score list is aligned with the employees). -/
def sGet (sims : List ℚ) (i : Nat) : ℚ :=
  sims.getD i 0

/-- Ascending comparison used by the stable argsort: by score, ties by
original position. -/
def leLex (sims : List ℚ) (i j : Nat) : Prop :=
  sGet sims i < sGet sims j ∨ (sGet sims i = sGet sims j ∧ i ≤ j)

instance (sims : List ℚ) : DecidableRel (leLex sims) := fun i j => by
  unfold leLex; exact inferInstance

/-- `np.argsort` (ascending).  numpy's default quicksort is documented as
unstable, so the real tie order on large arrays is implementation-defined;
this model fixes the stable (insertion-sort) tie order, which is exactly
what numpy produces below its small-array cutoff (about 16 elements).
Downstream theorems are tie-order agnostic except at a concrete
two-element input, where the model provably coincides with numpy. -/
def argsortAsc (sims : List ℚ) : List Nat :=
  List.insertionSort (leLex sims) (List.range sims.length)

/-- `np.argsort(similarities)[::-1]`. -/
def argsortDesc (sims : List ℚ) : List Nat :=
  (argsortAsc sims).reverse

/-- Python/numpy slice `xs[:k]` for an arbitrary (possibly negative) `k`. -/
def pyTake (k : Int) (xs : List α) : List α :=
  if 0 ≤ k then xs.take k.toNat else xs.take (xs.length - (-k).toNat)

/-- `top_indices = np.argsort(similarities)[::-1][:max_results * 2]`. -/
def topIndices (sims : List ℚ) (maxResults : Int) : List Nat :=
  pyTake (maxResults * 2) (argsortDesc sims)

/-! ## The filtering loop shared by both search strategies -/

/-- The `for idx in top_indices` loop of `_search_with_tfidf` /
`_search_with_sentence_transformers`: append each matching candidate and
break as soon as `len(filtered_results) >= max_results`.  `count` carries
`len(filtered_results)` so far. -/
def filterCandidates (emps : List Employee) (sims : List ℚ)
    (reqs : Requirements) (maxResults : Int) :
    List Nat → Int → List (Employee × ℚ)
  | [], _ => []
  | idx :: rest, count =>
    if matchesRequirements (emps.getD idx default) reqs then
      if count + 1 ≥ maxResults then
        [(emps.getD idx default, sGet sims idx)]
      else
        (emps.getD idx default, sGet sims idx) ::
          filterCandidates emps sims reqs maxResults rest (count + 1)
    else
      filterCandidates emps sims reqs maxResults rest count

/-- `RAGSystem._search_with_sentence_transformers` (the cosine-similarity
vector is the abstract `sims` input): filter, no fallback. -/
def searchWithSentenceTransformers (emps : List Employee) (sims : List ℚ)
    (query : String) (maxResults : Int) : List (Employee × ℚ) :=
  filterCandidates emps sims (extractRequirements query) maxResults
    (topIndices sims maxResults) 0

/-- `RAGSystem._search_with_tfidf` (the cosine-similarity vector is the
abstract `sims` input): filter, then the zero-match fallback that returns
the top raw-similarity candidates ignoring the requirements. -/
def searchWithTfidf (emps : List Employee) (sims : List ℚ)
    (query : String) (maxResults : Int) : List (Employee × ℚ) :=
  let tis := topIndices sims maxResults
  let filtered :=
    filterCandidates emps sims (extractRequirements query) maxResults tis 0
  if filtered.isEmpty then
    (pyTake maxResults tis).map (fun idx => (emps.getD idx default, sGet sims idx))
  else
    filtered

/-- `RAGSystem.search_employees`: dispatch on the strategy chosen at
startup. -/
def searchEmployees (useST : Bool) (emps : List Employee) (sims : List ℚ)
    (query : String) (maxResults : Int) : List (Employee × ℚ) :=
  if useST then searchWithSentenceTransformers emps sims query maxResults
  else searchWithTfidf emps sims query maxResults

/-! ## `_format_response` and `generate_response` -/

/-- `', '.join(xs)`. -/
def joinComma (xs : List String) : String :=
  String.intercalate ", " xs

/-- Python f-string rendering of an optional field (`None` prints as
"None"). -/
def optStr : Option String → String
  | some s => s
  | none => "None"

/-- The single-candidate narrative of `_format_response`. -/
def formatSingle (emp : Employee) : String :=
  "I found an excellent candidate for your requirements:\n\n" ++
  "**" ++ emp.name ++ "** would be perfect for this role. " ++
  "With " ++ toString emp.experience_years ++
  " years of experience, they have worked on projects like " ++
  joinComma (emp.projects.take 2) ++ ". " ++
  "Their key skills include " ++ joinComma (emp.skills.take 5) ++ ". " ++
  "They are currently " ++ availabilityStr emp.availability ++
  " and based in " ++ optStr emp.location ++ "." ++
  (match emp.specializations with
   | some specs =>
     if !specs.isEmpty then
       "\n\nTheir specializations include: " ++ joinComma specs ++ "."
     else ""
   | none => "")

/-- One numbered block of the multi-candidate narrative. -/
def formatEntry (i : Nat) (emp : Employee) : String :=
  "**" ++ toString i ++ ". " ++ emp.name ++ "** (" ++
  toString emp.experience_years ++ " years experience)\n" ++
  "   • Skills: " ++ joinComma (emp.skills.take 4) ++ "\n" ++
  "   • Recent projects: " ++ joinComma (emp.projects.take 2) ++ "\n" ++
  "   • Status: " ++ availabilityStr emp.availability ++
  " | Location: " ++ optStr emp.location ++ "\n" ++
  (match emp.specializations with
   | some specs =>
     if !specs.isEmpty then
       "   • Specializations: " ++ joinComma (specs.take 3) ++ "\n"
     else ""
   | none => "") ++
  "\n"

/-- The multi-candidate narrative of `_format_response` (top three detailed,
then a remainder line). -/
def formatMulti (emps : List Employee) : String :=
  "Based on your requirements, I found " ++ toString emps.length ++
  " excellent candidates:\n\n" ++
  String.join
    (List.zipWith (fun i e => formatEntry (i + 1) e)
      (List.range (emps.take 3).length) (emps.take 3)) ++
  (if emps.length > 3 then
    "And " ++ toString (emps.length - 3) ++ " more candidates available. "
   else "")

/-- `RAGSystem._format_response` (`scores` is accepted and unused, as in the
source). -/
def formatResponse (_query : String) (emps : List Employee)
    (_scores : List ℚ) : String :=
  (if emps.length = 1 then formatSingle (emps.getD 0 default)
   else formatMulti emps) ++
  "\n\nWould you like me to provide more details about any of these candidates or help you with additional search criteria?"

/-- The fixed zero-match apology of `generate_response`. -/
def apologyMessage : String :=
  "I couldn\x27t find any employees matching your specific requirements. Please try rephrasing your query or adjusting the criteria."

/-- `RAGSystem.generate_response`. -/
def generateResponse (useST : Bool) (emps : List Employee) (sims : List ℚ)
    (query : String) (maxResults : Int) : ChatResponse :=
  let results := searchEmployees useST emps sims query maxResults
  let employees := results.map Prod.fst
  let scores := results.map Prod.snd
  if employees.isEmpty then
    { response := apologyMessage
      matched_employees := []
      confidence_score := 0 }
  else
    { response := formatResponse query employees scores
      matched_employees := employees
      confidence_score :=
        if scores.isEmpty then 0 else scores.sum / (scores.length : ℚ) }

/-! ## Index construction (`RAGSystem.__init__`) -/

/-- The searchable text of `_build_tfidf_embeddings` (`emp.department or ""`
and `emp.location or ""` render `None` as the empty string). -/
def buildEmployeeTextTfidf (emp : Employee) : String :=
  String.toLower (String.intercalate " "
    (emp.skills ++ emp.projects ++
     [emp.name, emp.department.getD ""] ++
     emp.specializations.getD [] ++
     [availabilityStr emp.availability, emp.location.getD "",
      toString emp.experience_years ++ " years experience"]))

/-- The per-employee text of `_build_sentence_embeddings` (the stripped
multi-line f-string; optional fields render as "None"). -/
def buildEmployeeTextSemantic (emp : Employee) : String :=
  "Name: " ++ emp.name ++
  "\n            Skills: " ++ joinComma emp.skills ++
  "\n            Experience: " ++ toString emp.experience_years ++ " years" ++
  "\n            Projects: " ++ joinComma emp.projects ++
  "\n            Department: " ++ optStr emp.department ++
  "\n            Specializations: " ++ joinComma (emp.specializations.getD []) ++
  "\n            Availability: " ++ availabilityStr emp.availability ++
  "\n            Location: " ++ optStr emp.location

/-- Model of scikit-learn `TfidfVectorizer.fit_transform`: on an empty
corpus it raises `ValueError("empty vocabulary; ...")`; that empty-corpus
failure is the only behaviour of the vectorizer the claims rely on, so a
non-empty corpus is modelled as succeeding. -/
def tfidfFitTransform (texts : List String) : Except String (List String) :=
  if texts.isEmpty then
    .error "empty vocabulary; perhaps the documents only contain stop words"
  else
    .ok texts

/-- `RAGSystem._build_tfidf_embeddings`: build the searchable texts and fit
the vectorizer (which raises on an empty corpus). -/
def buildTfidfEmbeddings (emps : List Employee) : Except String (List String) :=
  tfidfFitTransform (emps.map buildEmployeeTextTfidf)

/-- `RAGSystem._build_sentence_embeddings`: `model.encode` maps each text to
a vector and succeeds on any list, including the empty one. -/
def buildSentenceEmbeddings (emps : List Employee) : List String :=
  emps.map buildEmployeeTextSemantic

/-- `RAGSystem.__init__` / `_initialize_embeddings`: the strategy is fixed
by whether sentence-transformers imports; the semantic path never raises,
the TF-IDF path propagates the vectorizer failure. -/
def ragInit (useST : Bool) (emps : List Employee) : Except String (List String) :=
  if useST then .ok (buildSentenceEmbeddings emps)
  else buildTfidfEmbeddings emps

/-! ## Orders on ranking indices -/

/-- Descending comparison with ties in original order. -/
def geLexSpec (sims : List ℚ) (i j : Nat) : Prop :=
  sGet sims j < sGet sims i ∨ (sGet sims i = sGet sims j ∧ i ≤ j)

instance (sims : List ℚ) : DecidableRel (geLexSpec sims) := fun i j => by
  unfold geLexSpec; exact inferInstance

/-- Modelled from the spec: "Ordering: descending by score; ties broken by
original employee list order (stable sort)" — the ranking the spec
describes, to be compared with `argsortDesc`. -/
def specStableDescRanking (sims : List ℚ) : List Nat :=
  List.insertionSort (geLexSpec sims) (List.range sims.length)

instance (sims : List ℚ) : IsTotal Nat (leLex sims) where
  total i j := by
    unfold leLex
    rcases lt_trichotomy (sGet sims i) (sGet sims j) with h | h | h
    · exact .inl (.inl h)
    · rcases Nat.le_total i j with hij | hij
      · exact .inl (.inr ⟨h, hij⟩)
      · exact .inr (.inr ⟨h.symm, hij⟩)
    · exact .inr (.inl h)

instance (sims : List ℚ) : IsTrans Nat (leLex sims) where
  trans i j k hij hjk := by
    unfold leLex at *
    rcases hij with h1 | ⟨h1, h1'⟩ <;> rcases hjk with h2 | ⟨h2, h2'⟩
    · exact .inl (h1.trans h2)
    · exact .inl (h2 ▸ h1)
    · exact .inl (h1 ▸ h2)
    · exact .inr ⟨h1.trans h2, h1'.trans h2'⟩

/-- Weakening of `leLex` to the score component alone. -/
lemma leLex_score_le {sims : List ℚ} {i j : Nat} (h : leLex sims i j) :
    sGet sims i ≤ sGet sims j := by
  rcases h with h | ⟨h, _⟩
  · exact le_of_lt h
  · exact le_of_eq h

/-! ## Concrete fixtures for witnesses and counterexamples -/

/-- An available Python developer. -/
def empA : Employee :=
  { id := 1, name := "Alice", skills := ["Python"], experience_years := 5,
    projects := ["Portal"], availability := .available }

/-- A busy Java developer. -/
def empB : Employee :=
  { id := 2, name := "Bob", skills := ["Java"], experience_years := 2,
    projects := ["Billing"], availability := .busy }

/-! ## Helper lemmas -/

lemma filterCandidates_length_le (emps : List Employee) (sims : List ℚ)
    (reqs : Requirements) (maxResults : Int) :
    ∀ (idxs : List Nat) (count : Int), count < maxResults →
      ((filterCandidates emps sims reqs maxResults idxs count).length : Int) ≤
        maxResults - count := by
  intro idxs
  induction idxs with
  | nil =>
    intro count h
    simp only [filterCandidates, List.length_nil]
    omega
  | cons idx rest ih =>
    intro count h
    simp only [filterCandidates]
    split
    · split
      · simp only [List.length_singleton]
        omega
      · rename_i hbreak
        have := ih (count + 1) (by omega)
        simp only [List.length_cons]
        push_cast at this ⊢
        omega
    · exact (ih count h).trans (le_refl _)

lemma filterCandidates_all_match (emps : List Employee) (sims : List ℚ)
    (reqs : Requirements) (maxResults : Int) :
    ∀ (idxs : List Nat) (count : Int),
      ∀ p ∈ filterCandidates emps sims reqs maxResults idxs count,
        matchesRequirements p.1 reqs = true := by
  intro idxs
  induction idxs with
  | nil =>
    intro count p hp
    simp [filterCandidates] at hp
  | cons idx rest ih =>
    intro count p hp
    simp only [filterCandidates] at hp
    split at hp
    · rename_i hmatch
      split at hp
      · simp only [List.mem_singleton] at hp
        subst hp
        exact hmatch
      · simp only [List.mem_cons] at hp
        rcases hp with rfl | hp
        · exact hmatch
        · exact ih (count + 1) p hp
    · exact ih count p hp

lemma filterCandidates_nil_of_none (emps : List Employee) (sims : List ℚ)
    (reqs : Requirements) (maxResults : Int) :
    ∀ (idxs : List Nat) (count : Int),
      (∀ idx ∈ idxs, matchesRequirements (emps.getD idx default) reqs = false) →
      filterCandidates emps sims reqs maxResults idxs count = [] := by
  intro idxs
  induction idxs with
  | nil => intro count _; simp [filterCandidates]
  | cons idx rest ih =>
    intro count h
    simp only [filterCandidates]
    rw [if_neg]
    · exact ih count (fun i hi => h i (List.mem_cons_of_mem _ hi))
    · rw [h idx (List.mem_cons_self _ _)]
      simp

lemma pyTake_length_le {α : Type} (k : Int) (hk : 0 ≤ k) (xs : List α) :
    ((pyTake k xs).length : Int) ≤ k := by
  simp only [pyTake, if_pos hk]
  have h1 : (xs.take k.toNat).length ≤ k.toNat := by
    simp
  omega

/-! ### Substring lemmas for the extraction proofs -/

lemma lstartsWith_append_self (xs ys : List Char) :
    lstartsWith (xs ++ ys) xs = true := by
  induction xs with
  | nil => cases ys <;> simp [lstartsWith]
  | cons c cs ih => simp [lstartsWith, ih]

lemma lstartsWith_exists {xs nd : List Char} (h : lstartsWith xs nd = true) :
    ∃ rest, xs = nd ++ rest := by
  induction nd generalizing xs with
  | nil => exact ⟨xs, rfl⟩
  | cons d ds ih =>
    cases xs with
    | nil => simp [lstartsWith] at h
    | cons c cs =>
      simp only [lstartsWith, Bool.and_eq_true, beq_iff_eq] at h
      obtain ⟨rest, hrest⟩ := ih h.2
      exact ⟨rest, by simp [h.1, hrest]⟩

lemma lcontains_nil_needle (xs : List Char) : lcontains xs [] = true := by
  cases xs <;> simp [lcontains, lstartsWith]

lemma lcontains_of_append (pre nd rest : List Char) :
    lcontains (pre ++ (nd ++ rest)) nd = true := by
  induction pre with
  | nil =>
    simp only [List.nil_append]
    cases nd with
    | nil => exact lcontains_nil_needle rest
    | cons d ds =>
      simp only [List.cons_append, lcontains, Bool.or_eq_true]
      exact .inl (by simpa using lstartsWith_append_self (d :: ds) rest)
  | cons p ps ih =>
    simp [lcontains, ih]

lemma lcontains_exists {hay nd : List Char} (h : lcontains hay nd = true) :
    ∃ pre rest, hay = pre ++ (nd ++ rest) := by
  induction hay with
  | nil =>
    simp only [lcontains, List.isEmpty_iff] at h
    exact ⟨[], [], by simp [h]⟩
  | cons c cs ih =>
    simp only [lcontains, Bool.or_eq_true] at h
    rcases h with h | h
    · obtain ⟨rest, hrest⟩ := lstartsWith_exists h
      exact ⟨[], rest, by simp [hrest]⟩
    · obtain ⟨pre, rest, hpre⟩ := ih h
      exact ⟨c :: pre, rest, by simp [hpre]⟩

lemma lcontains_map (f : Char → Char) {hay nd : List Char}
    (h : lcontains hay nd = true) :
    lcontains (hay.map f) (nd.map f) = true := by
  obtain ⟨pre, rest, hdecomp⟩ := lcontains_exists h
  subst hdecomp
  simpa using lcontains_of_append (pre.map f) (nd.map f) (rest.map f)

/-! ### Occurrence implies a regex match -/

lemma searchPat_isSome_of_suffix (m : List Char → Option Nat)
    (hnil : m [] = none) :
    ∀ (pre suf : List Char), (m suf).isSome = true →
      (searchPat m (pre ++ suf)).isSome = true := by
  intro pre
  induction pre with
  | nil =>
    intro suf hsuf
    cases suf with
    | nil => rw [hnil] at hsuf; simp at hsuf
    | cons c cs =>
      simp only [List.nil_append, searchPat]
      cases h : m (c :: cs) with
      | none => rw [h] at hsuf; simp at hsuf
      | some n => simp
  | cons p ps ih =>
    intro suf hsuf
    simp only [List.cons_append, searchPat]
    cases h : m (p :: (ps ++ suf)) with
    | none => exact ih suf hsuf
    | some n => simp

lemma matchP1_at_occurrence (rest : List Char) :
    matchP1 ("3 years experience".data ++ rest) = some 3 := by
  simp +decide [matchP1, spanDigits, skipSpaces, optChar, litMatch,
    lstartsWith, isDigit, isSpace, digitsToNat, String.data]

lemma extractExperience_isSome_of_p1 {ql : List Char}
    (h : (searchPat matchP1 ql).isSome = true) :
    (extractExperience ql).isSome = true := by
  unfold extractExperience
  cases hs : searchPat matchP1 ql with
  | none => rw [hs] at h; simp at h
  | some n => simp

/-! ## Claims -/

/-- C6: for every query, the extracted availability constraint is
`'available'` exactly when the case-insensitive query contains the literal
"available", and no query ever produces a `'busy'` or `'on_leave'`
availability constraint. -/
theorem availability_extraction_iff (q : String) :
    ((extractRequirements q).availability = some "available" ↔
      lcontains (lowerData q) "available".data = true) ∧
    (extractRequirements q).availability ≠ some "busy" ∧
    (extractRequirements q).availability ≠ some "on_leave" := by
  simp only [extractRequirements]
  by_cases h : lcontains (lowerData q) "available".data = true <;>
    simp [h]

/-- C9: an extracted minimum-experience threshold of `0` is Python-falsy,
so `_matches_requirements` behaves exactly as if no experience constraint
had been extracted — every employee passes the experience check. -/
theorem zero_experience_constraint_inert (q : String) (emp : Employee)
    (h : (extractRequirements q).experience = some 0) :
    matchesRequirements emp (extractRequirements q) =
      matchesRequirements emp
        { extractRequirements q with experience := none } := by
  simp [matchesRequirements, h, optNatTruthy]

/-- Witness for C9 at the query "0 years experience". -/
theorem zero_experience_constraint_inert_witness :
    (extractRequirements "0 years experience").experience = some 0 ∧
    matchesRequirements empB (extractRequirements "0 years experience") =
      matchesRequirements empB
        { extractRequirements "0 years experience" with experience := none } :=
  ⟨by decide, zero_experience_constraint_inert "0 years experience" empB (by decide)⟩

/-- C10: the extractor never assigns a department constraint, and the
constraint filter never reads an employee's department, so the department
field cannot affect which employees pass the filter. -/
theorem department_never_affects_filter :
    (∀ q : String, (extractRequirements q).department = none) ∧
    (∀ (emp : Employee) (reqs : Requirements) (d : Option String),
      matchesRequirements { emp with department := d } reqs =
        matchesRequirements emp reqs) :=
  ⟨fun _ => rfl, fun _ _ _ => rfl⟩

/-- C3 counterexample: with `maxResults = 0` (non-positive),
`generate_response` does not fail at all — it returns the normal zero-match
apology `ChatResponse`, so no `QueryError` is ever raised. -/
theorem generate_response_nonpositive_no_error_cex :
    generateResponse false [empA] [1] "python developers" 0 =
      { response := apologyMessage, matched_employees := [],
        confidence_score := 0 } := by
  decide

/-- C3 amended: `generate_response` performs no validation of `maxResults`
and never raises; with `maxResults = 0` the search examines no candidates
and the apology result (empty match list, confidence 0) is returned, and a
query with zero matches is likewise a successful, non-error result. -/
theorem generate_response_zero_maxresults_apology (useST : Bool)
    (emps : List Employee) (sims : List ℚ) (q : String) :
    generateResponse useST emps sims q 0 =
      { response := apologyMessage, matched_employees := [],
        confidence_score := 0 } := by
  have htop : topIndices sims 0 = [] := by
    simp [topIndices, pyTake]
  cases useST <;>
    simp [generateResponse, searchEmployees, searchWithTfidf,
      searchWithSentenceTransformers, htop, filterCandidates, pyTake]

/-- C4 counterexample: under the sentence-transformers strategy,
`RAGSystem.__init__` on an empty employee list does not fail — it builds an
empty index successfully. -/
theorem rag_init_semantic_empty_ok_cex :
    ragInit true [] = .ok [] := rfl

/-- C4 amended: initialisation on an empty employee list fails only under
the TF-IDF strategy (scikit-learn's empty-vocabulary error); under the
sentence-transformers strategy it succeeds with an empty index. -/
theorem rag_init_empty_corpus_strategies :
    ragInit false [] =
      .error "empty vocabulary; perhaps the documents only contain stop words" ∧
    ragInit true [] = .ok [] :=
  ⟨rfl, rfl⟩

/-- C5 counterexample: on two employees with equal similarity scores the
code ranks index 1 before index 0, while the spec's stable descending
ranking keeps the original order `[0, 1]`.  (At two elements numpy's
argsort really is the stable insertion sort, so the model is exact here.) -/
theorem ranking_tie_order_cex :
    argsortDesc [(1 : ℚ), 1] = [1, 0] ∧
    specStableDescRanking [(1 : ℚ), 1] = [0, 1] := by
  constructor <;> decide

/-- C5 amended: `np.argsort(similarities)[::-1]` does rank every employee
by descending similarity score (a total ranking, i.e. a permutation of all
employee indices), but the tie clause of the claim is wrong: equal scores
are not kept in original employee-list order.  The tie order is
implementation-defined (numpy's default quicksort is unstable); nothing
beyond descending-by-score is guaranteed, and in numpy's small-array
insertion-sort regime the reversal puts ties in reverse original order, as
the two-element counterexample shows. -/
theorem ranking_desc_any_ties (sims : List ℚ) :
    List.Sorted (fun i j => sGet sims j ≤ sGet sims i) (argsortDesc sims) ∧
    (argsortDesc sims).Perm (List.range sims.length) := by
  constructor
  · have hs : List.Sorted (leLex sims) (argsortAsc sims) :=
      List.sorted_insertionSort (leLex sims) _
    exact List.pairwise_reverse.2 (hs.imp leLex_score_le)
  · exact (List.reverse_perm _).trans (List.perm_insertionSort _ _)

lemma searchWithTfidf_eq (emps : List Employee) (sims : List ℚ)
    (query : String) (maxResults : Int) :
    searchWithTfidf emps sims query maxResults =
      if (filterCandidates emps sims (extractRequirements query) maxResults
            (topIndices sims maxResults) 0).isEmpty then
        (pyTake maxResults (topIndices sims maxResults)).map
          (fun idx => (emps.getD idx default, sGet sims idx))
      else
        filterCandidates emps sims (extractRequirements query) maxResults
          (topIndices sims maxResults) 0 := rfl

/-- C1: with `maxResults ≥ 1`, both search strategies return at most
`maxResults` employees; every employee the semantic strategy returns
matches the extracted requirements, and so does every employee the lexical
strategy returns whenever its zero-match fallback was not triggered. -/
theorem tfidf_and_semantic_filter_sound (emps : List Employee)
    (sims : List ℚ) (query : String) (maxResults : Int)
    (h : 1 ≤ maxResults) :
    ((searchWithTfidf emps sims query maxResults).length : Int) ≤ maxResults ∧
    ((searchWithSentenceTransformers emps sims query maxResults).length : Int) ≤
      maxResults ∧
    (∀ p ∈ searchWithSentenceTransformers emps sims query maxResults,
      matchesRequirements p.1 (extractRequirements query) = true) ∧
    (filterCandidates emps sims (extractRequirements query) maxResults
        (topIndices sims maxResults) 0 ≠ [] →
      ∀ p ∈ searchWithTfidf emps sims query maxResults,
        matchesRequirements p.1 (extractRequirements query) = true) := by
  have hflt := filterCandidates_length_le emps sims (extractRequirements query)
    maxResults (topIndices sims maxResults) 0 (by omega)
  refine ⟨?_, ?_, ?_, ?_⟩
  · rw [searchWithTfidf_eq]
    split
    · rw [List.length_map]
      exact pyTake_length_le maxResults (by omega) _
    · omega
  · have := hflt
    unfold searchWithSentenceTransformers
    omega
  · intro p hp
    exact filterCandidates_all_match emps sims (extractRequirements query)
      maxResults (topIndices sims maxResults) 0 p hp
  · intro hne p hp
    rw [searchWithTfidf_eq, if_neg (by simpa [List.isEmpty_iff] using hne)] at hp
    exact filterCandidates_all_match emps sims (extractRequirements query)
      maxResults (topIndices sims maxResults) 0 p hp

/-- Witness for C1 at a concrete corpus and query where the lexical filter
keeps a candidate (no fallback). -/
theorem tfidf_and_semantic_filter_sound_witness :
    ((searchWithTfidf [empA, empB] [1, 2] "available python" 1).length : Int) ≤ 1 ∧
    ((searchWithSentenceTransformers [empA, empB] [1, 2] "available python" 1).length : Int) ≤ 1 ∧
    (∀ p ∈ searchWithSentenceTransformers [empA, empB] [1, 2] "available python" 1,
      matchesRequirements p.1 (extractRequirements "available python") = true) ∧
    (∀ p ∈ searchWithTfidf [empA, empB] [1, 2] "available python" 1,
      matchesRequirements p.1 (extractRequirements "available python") = true) := by
  have t := tfidf_and_semantic_filter_sound [empA, empB] [1, 2]
    "available python" 1 (by decide)
  exact ⟨t.1, t.2.1, t.2.2.1, t.2.2.2 (by decide)⟩

/-- C2: when no examined candidate passes the constraint filter, the
lexical strategy falls back to the top `maxResults` candidates by raw
similarity (ignoring all constraints) while the semantic strategy returns
the empty result — the fallback is applied by exactly one strategy. -/
theorem zero_match_fallback_asymmetry (emps : List Employee) (sims : List ℚ)
    (query : String) (maxResults : Int)
    (h : ∀ idx ∈ topIndices sims maxResults,
      matchesRequirements (emps.getD idx default)
        (extractRequirements query) = false) :
    searchWithTfidf emps sims query maxResults =
      (pyTake maxResults (topIndices sims maxResults)).map
        (fun idx => (emps.getD idx default, sGet sims idx)) ∧
    searchWithSentenceTransformers emps sims query maxResults = [] := by
  have hnil := filterCandidates_nil_of_none emps sims
    (extractRequirements query) maxResults (topIndices sims maxResults) 0 h
  constructor
  · rw [searchWithTfidf_eq, hnil]
    simp
  · exact hnil

/-- Witness for C2: one busy employee, a query requiring availability. -/
theorem zero_match_fallback_asymmetry_witness :
    searchWithTfidf [empB] [1] "available" 1 =
      (pyTake 1 (topIndices [1] 1)).map
        (fun idx => (([empB] : List Employee).getD idx default, sGet [1] idx)) ∧
    searchWithSentenceTransformers [empB] [1] "available" 1 = [] :=
  zero_match_fallback_asymmetry [empB] [1] "available" 1 (by decide)

/-- C7 counterexample: the query "3 years experience available" contains
both required substrings, yet extraction does not yield an empty skill set
(the vocabulary term "ai" is a substring of "available"). -/
theorem extract_canonical_query_skills_cex :
    lcontains "3 years experience available".data
      "3 years experience".data = true ∧
    lcontains "3 years experience available".data "available".data = true ∧
    extractRequirements "3 years experience available" ≠
      { skills := [], experience := some 3, projects := [],
        availability := some "available", department := none } := by
  refine ⟨by decide, by decide, by decide⟩

/-- C7 amended: for every query containing the exact substrings
"3 years experience" and "available", extraction yields the availability
constraint `'available'` and some experience constraint, and a skill set
that always contains "ai" (a vocabulary term that is a substring of
"available") — not the empty skill set the spec states; surrounding text
can add further skills and move the experience value. -/
theorem extract_canonical_query_amended (q : String)
    (h1 : lcontains q.data "3 years experience".data = true)
    (h2 : lcontains q.data "available".data = true) :
    (extractRequirements q).availability = some "available" ∧
    (extractRequirements q).experience.isSome = true ∧
    "ai".data ∈ (extractRequirements q).skills := by
  have hl1 : lcontains (lowerData q) "3 years experience".data = true := by
    have hm := lcontains_map Char.toLower h1
    rwa [show ("3 years experience".data.map Char.toLower) =
      "3 years experience".data from by decide] at hm
  have hl2 : lcontains (lowerData q) "available".data = true := by
    have hm := lcontains_map Char.toLower h2
    rwa [show ("available".data.map Char.toLower) =
      "available".data from by decide] at hm
  refine ⟨?_, ?_, ?_⟩
  · simp [extractRequirements, hl2]
  · obtain ⟨pre, rest, hdecomp⟩ := lcontains_exists hl1
    have hp1 : (matchP1 ("3 years experience".data ++ rest)).isSome = true := by
      rw [matchP1_at_occurrence]; rfl
    have hsome := searchPat_isSome_of_suffix matchP1 rfl pre _ hp1
    rw [← hdecomp] at hsome
    show (extractExperience (lowerData q)).isSome = true
    exact extractExperience_isSome_of_p1 hsome
  · have hai : lcontains (lowerData q) "ai".data = true := by
      obtain ⟨pre, rest, hdecomp⟩ := lcontains_exists hl2
      have hsplit : ("available".data : List Char) =
          "av".data ++ ("ai".data ++ "lable".data) := by decide
      rw [hdecomp, hsplit]
      have happ := lcontains_of_append (pre ++ "av".data) "ai".data
        ("lable".data ++ rest)
      simpa [List.append_assoc] using happ
    simp only [extractRequirements, List.mem_filter]
    exact ⟨by decide, hai⟩

/-- Witness for C7 (amended) at the canonical query. -/
theorem extract_canonical_query_amended_witness :
    (extractRequirements "3 years experience available").availability =
      some "available" ∧
    (extractRequirements "3 years experience available").experience.isSome =
      true ∧
    "ai".data ∈ (extractRequirements "3 years experience available").skills :=
  extract_canonical_query_amended "3 years experience available"
    (by decide) (by decide)

/-- C8: zero matched employees make `generate_response` return (not raise)
the fixed apology with an empty match list and confidence 0, and whenever
matches are returned the confidence is the arithmetic mean of their
similarity scores. -/
theorem generate_response_apology_and_confidence (useST : Bool)
    (emps : List Employee) (sims : List ℚ) (query : String)
    (maxResults : Int) :
    (searchEmployees useST emps sims query maxResults = [] →
      generateResponse useST emps sims query maxResults =
        { response := apologyMessage, matched_employees := [],
          confidence_score := 0 }) ∧
    (searchEmployees useST emps sims query maxResults ≠ [] →
      (generateResponse useST emps sims query maxResults).confidence_score =
        ((searchEmployees useST emps sims query maxResults).map Prod.snd).sum /
          (((searchEmployees useST emps sims query maxResults).map
              Prod.snd).length : ℚ)) := by
  constructor
  · intro h
    simp [generateResponse, h]
  · intro h
    have hne : ((searchEmployees useST emps sims query maxResults).map
        Prod.fst).isEmpty = false := by
      simp [List.isEmpty_iff, h]
    have hne2 : ((searchEmployees useST emps sims query maxResults).map
        Prod.snd).isEmpty = false := by
      simp [List.isEmpty_iff, h]
    simp [generateResponse, hne, hne2]

/-- Witness for C8: a zero-match query and a nonzero-match query on a
one-employee corpus. -/
theorem generate_response_apology_and_confidence_witness :
    generateResponse true [empB] [1] "available" 5 =
      { response := apologyMessage, matched_employees := [],
        confidence_score := 0 } ∧
    (generateResponse true [empB] [1] "hello" 5).confidence_score =
      ((searchEmployees true [empB] [1] "hello" 5).map Prod.snd).sum /
        (((searchEmployees true [empB] [1] "hello" 5).map Prod.snd).length : ℚ) :=
  ⟨(generate_response_apology_and_confidence true [empB] [1] "available" 5).1
      (by decide),
   (generate_response_apology_and_confidence true [empB] [1] "hello" 5).2
      (by decide)⟩

end RagHR
